import Mathlib

/-!
Shallow embedding of the utility billing portal (`src/portal.py`).

The program keeps three SQLite tables (`users`, `customers`, `receipts`)
and mutates them through a handful of operations: client registration,
admin usage update, admin customer deletion, bulk CSV import and client
bill settlement.  We model each table as a list of rows in insertion
order (so `fetchone` on an un-ordered `SELECT` returns the first matching
element), `REAL` columns as `ℚ` (the only arithmetic is multiplication by
the configured rate `0.50`, exact in both models), `AUTOINCREMENT`
primary keys as explicit `next_*` counters carried in the state, and a
failed SQL transaction as returning the unchanged pre-state (SQLite rolls
back an uncommitted transaction, so the net effect is identical).
Timestamps are opaque strings: `datetime.now().strftime('%Y%m%d%H%M%S')`
has one-second resolution, so two calls within the same second yield the
same string.
-/

/-- A row of the `users` table: `id, email (UNIQUE), password_hash, role`. -/
structure UserRow where
  id : Nat
  email : String
  password_hash : String
  role : String
  deriving Repr, DecidableEq

/-- A row of the `customers` table: `id, full_name, email (UNIQUE),
monthly_usage_kwh REAL DEFAULT 0.0, bill_paid BOOLEAN DEFAULT 0,
user_id (nullable, no uniqueness constraint), last_payment_date,
bill_due_date`. -/
structure CustomerRow where
  id : Nat
  full_name : String
  email : String
  monthly_usage_kwh : ℚ
  bill_paid : Bool
  user_id : Option Nat
  last_payment_date : Option String
  bill_due_date : Option String
  deriving Repr, DecidableEq

/-- A row of the `receipts` table: `id, receipt_id (UNIQUE), customer_id,
amount_paid, payment_date`. -/
structure ReceiptRow where
  id : Nat
  receipt_id : String
  customer_id : Nat
  amount_paid : ℚ
  payment_date : String
  deriving Repr, DecidableEq

/-- The persistent database state: the three tables plus the
`AUTOINCREMENT` counters. -/
structure Ledger where
  users : List UserRow
  customers : List CustomerRow
  receipts : List ReceiptRow
  next_user_id : Nat
  next_customer_id : Nat
  next_receipt_row_id : Nat
  deriving Repr, DecidableEq

/-- `CONFIG['COST_PER_KWH'] = 0.50`. -/
def costPerKwh : ℚ := 1 / 2

/-- `setup_database` creates the tables and inserts the default admin user
`admin@portal.com` (its bcrypt hash is opaque to the model).  SQLite row
ids start at 1, so the counters start at 2 / 1 / 1. -/
def initLedger : Ledger :=
  { users := [⟨1, "admin@portal.com", "bcrypt-of-admin", "admin"⟩]
    customers := []
    receipts := []
    next_user_id := 2
    next_customer_id := 1
    next_receipt_row_id := 1 }

/-- The generated receipt id: the literal prefix `RPT-`, the
second-resolution timestamp, a dash, and the customer id — an f-string
over `datetime.now()` in the source. -/
def mkReceiptId (stamp : String) (customer_id : Nat) : String :=
  "RPT-" ++ stamp ++ "-" ++ toString customer_id

inductive RegisterResult where
  | ok (user_id : Nat)
  | accountExists
  deriving Repr, DecidableEq

/-- `register_user` (the database part, portal.py lines 137-161): insert a
`role='client'` user, then the linked customer sharing the email, and
commit both together.  Either `INSERT` hitting its `UNIQUE(email)`
constraint raises `IntegrityError` before the commit, so the rollback
leaves neither row persisted. -/
def register_user (full_name email password_hash : String) (st : Ledger) :
    RegisterResult × Ledger :=
  if st.users.any (fun u => decide (u.email = email)) then
    (RegisterResult.accountExists, st)
  else if st.customers.any (fun c => decide (c.email = email)) then
    (RegisterResult.accountExists, st)
  else
    (RegisterResult.ok st.next_user_id,
      { st with
          users := st.users ++ [⟨st.next_user_id, email, password_hash, "client"⟩]
          customers := st.customers ++
            [⟨st.next_customer_id, full_name, email, 0, false,
              some st.next_user_id, none, none⟩]
          next_user_id := st.next_user_id + 1
          next_customer_id := st.next_customer_id + 1 })

inductive AddResult where
  | ok
  | accountExists
  deriving Repr, DecidableEq

/-- `admin_add_customer`: inserts an unlinked customer row;
`UNIQUE(customers.email)` rejects a duplicate email. -/
def admin_add_customer (name email : String) (usage : ℚ) (st : Ledger) :
    AddResult × Ledger :=
  if st.customers.any (fun c => decide (c.email = email)) then
    (AddResult.accountExists, st)
  else
    (AddResult.ok,
      { st with
          customers := st.customers ++
            [⟨st.next_customer_id, name, email, usage, false, none, none, none⟩]
          next_customer_id := st.next_customer_id + 1 })

inductive UpdateResult where
  | ok
  | notFound
  deriving Repr, DecidableEq

/-- The row transformation of `UPDATE customers SET monthly_usage_kwh = ?,
bill_paid = 0 WHERE id = ?`. -/
def usageUpdate (customer_id : Nat) (new_usage : ℚ) (c : CustomerRow) : CustomerRow :=
  if c.id = customer_id then
    { c with monthly_usage_kwh := new_usage, bill_paid := false }
  else c

/-- `admin_update_usage`: runs the `UPDATE` above; `rowcount == 0` reports
"no customer found".  The source performs no sign check on the new usage
value. -/
def admin_update_usage (customer_id : Nat) (new_usage : ℚ) (st : Ledger) :
    UpdateResult × Ledger :=
  if st.customers.any (fun c => decide (c.id = customer_id)) then
    (UpdateResult.ok,
      { st with customers := st.customers.map (usageUpdate customer_id new_usage) })
  else (UpdateResult.notFound, st)

inductive DeleteResult where
  | ok
  | notFound
  deriving Repr, DecidableEq

/-- `admin_delete_customer`: fetch `user_id` of the customer (NotFound when
absent), `DELETE FROM customers WHERE id = ?`, and — under Python
truthiness `if user_id_to_delete:`, i.e. non-null and non-zero — also
`DELETE FROM users WHERE id = ?`.  Receipts are never touched. -/
def admin_delete_customer (customer_id : Nat) (st : Ledger) :
    DeleteResult × Ledger :=
  match st.customers.find? (fun c => decide (c.id = customer_id)) with
  | none => (DeleteResult.notFound, st)
  | some row =>
    (DeleteResult.ok,
      { st with
          customers := st.customers.filter (fun c => decide (c.id ≠ customer_id))
          users :=
            match row.user_id with
            | none => st.users
            | some u =>
              if u = 0 then st.users
              else st.users.filter (fun x => decide (x.id ≠ u)) })

/-- One data row of an imported CSV file.  `full_name`, `email` and
`monthly_usage_kwh` are the columns `admin_bulk_load` requires;
`pandas.DataFrame.to_sql(..., if_exists='append')` additionally appends
any further column present in the file that exists in the `customers`
table — in particular `bill_paid` and `user_id` (both listed in the
export/import flat-file schema).  When a column is absent from the file
the table defaults apply, which coincide with the defaults here. -/
structure CsvRow where
  full_name : String
  email : String
  monthly_usage_kwh : ℚ
  bill_paid : Bool := false
  user_id : Option Nat := none
  deriving Repr, DecidableEq

/-- Appending one CSV row to the `customers` table. -/
def insertCustomerRow (r : CsvRow) (st : Ledger) : Ledger :=
  { st with
      customers := st.customers ++
        [⟨st.next_customer_id, r.full_name, r.email, r.monthly_usage_kwh,
          r.bill_paid, r.user_id, none, none⟩]
      next_customer_id := st.next_customer_id + 1 }

/-- The `executemany` underlying `to_sql`: rows are inserted one by one
inside a single transaction; the first row whose email collides with the
table as grown so far raises `IntegrityError` and aborts the whole
statement (`none`). -/
def insertCsvRows : Ledger → List CsvRow → Option Ledger
  | st, [] => some st
  | st, r :: rs =>
    if st.customers.any (fun c => decide (c.email = r.email)) then none
    else insertCsvRows (insertCustomerRow r st) rs

inductive ImportResult where
  | ok (count : Nat)
  | duplicateEmail
  deriving Repr, DecidableEq

/-- `admin_bulk_load`: `df.to_sql('customers', conn, if_exists='append')`
runs all inserts inside one pandas `run_transaction`, which commits on
success and rolls back (restoring the pre-import table) when any insert
raises `IntegrityError`; the handler then reports the duplicate-email
error. -/
def admin_bulk_load (rows : List CsvRow) (st : Ledger) : ImportResult × Ledger :=
  match insertCsvRows st rows with
  | none => (ImportResult.duplicateEmail, st)
  | some st2 => (ImportResult.ok rows.length, st2)

inductive SettleResult where
  | notFound
  | alreadyPaid
  | settled (receipt_id : String) (amount : ℚ)
  | idCollision
  deriving Repr, DecidableEq

/-- The row transformation of settlement's `UPDATE customers SET
bill_paid = 1, monthly_usage_kwh = 0.0, last_payment_date = ?
WHERE user_id = ?` — note it matches on `user_id`, not on the customer
id. -/
def settleUpdate (uid : Nat) (now : String) (c : CustomerRow) : CustomerRow :=
  if c.user_id = some uid then
    { c with bill_paid := true, monthly_usage_kwh := 0, last_payment_date := some now }
  else c

/-- `client_pay_bill` (the confirmed-payment path; declining the
confirmation prompt is a UI no-op): fetch the first customer row linked
to the logged-in user (`fetchone`), report AlreadyPaid when `bill_paid`
is set, otherwise compute the amount due, run the `UPDATE ... WHERE
user_id = ?` and the receipt `INSERT` in one transaction and commit.
When the generated `receipt_id` already exists, the `UNIQUE` constraint
raises `IntegrityError` (uncaught — only `OperationalError` is handled),
the transaction is never committed, and the database keeps its prior
state; we model that aborted transaction as `idCollision` with the
unchanged ledger.  `now` stands for the one-second-resolution timestamp
of the call. -/
def client_pay_bill (uid : Nat) (now : String) (st : Ledger) :
    SettleResult × Ledger :=
  match st.customers.find? (fun c => decide (c.user_id = some uid)) with
  | none => (SettleResult.notFound, st)
  | some row =>
    if row.bill_paid then (SettleResult.alreadyPaid, st)
    else
      if st.receipts.any (fun r => decide (r.receipt_id = mkReceiptId now row.id)) then
        (SettleResult.idCollision, st)
      else
        (SettleResult.settled (mkReceiptId now row.id) (row.monthly_usage_kwh * costPerKwh),
          { st with
              customers := st.customers.map (settleUpdate uid now)
              receipts := st.receipts ++
                [⟨st.next_receipt_row_id, mkReceiptId now row.id, row.id,
                  row.monthly_usage_kwh * costPerKwh, now⟩]
              next_receipt_row_id := st.next_receipt_row_id + 1 })

/-- The operations a session can issue against the ledger. -/
inductive Op where
  | register (full_name email password_hash : String)
  | addCustomer (name email : String) (usage : ℚ)
  | updateUsage (customer_id : Nat) (new_usage : ℚ)
  | settle (uid : Nat) (now : String)
  | deleteCustomer (customer_id : Nat)
  | importCsv (rows : List CsvRow)
  deriving Repr, DecidableEq

/-- Whether an operation is the CSV bulk import. -/
def Op.isImport : Op → Bool
  | Op.importCsv _ => true
  | _ => false

/-- State transition of one operation (results discarded; failing
operations leave the state unchanged). -/
def applyOp (st : Ledger) : Op → Ledger
  | Op.register n e p => (register_user n e p st).2
  | Op.addCustomer n e u => (admin_add_customer n e u st).2
  | Op.updateUsage cid u => (admin_update_usage cid u st).2
  | Op.settle uid now => (client_pay_bill uid now st).2
  | Op.deleteCustomer cid => (admin_delete_customer cid st).2
  | Op.importCsv rows => (admin_bulk_load rows st).2

/-- The ledger reached from the fresh database by a sequence of
operations. -/
def runOps (ops : List Op) : Ledger :=
  ops.foldl applyOp initLedger

/-- "bill_paid=true only with a corresponding Receipt": every paid
customer has at least one receipt row referencing its id. -/
def paidHasReceipt (st : Ledger) : Prop :=
  ∀ c ∈ st.customers, c.bill_paid = true →
    ∃ r ∈ st.receipts, r.customer_id = c.id

/-- At most one customer row is linked to any given user id. -/
def linkedUnique (st : Ledger) : Prop :=
  ∀ c1 ∈ st.customers, ∀ c2 ∈ st.customers, ∀ u : Nat,
    c1.user_id = some u → c2.user_id = some u → c1 = c2

/-- Every linked user id is below the `users` autoincrement counter. -/
def linkedBounded (st : Ledger) : Prop :=
  ∀ c ∈ st.customers, ∀ u : Nat, c.user_id = some u → u < st.next_user_id

/-- The inductive invariant for the import-free fragment. -/
def ledgerInv (st : Ledger) : Prop :=
  paidHasReceipt st ∧ linkedUnique st ∧ linkedBounded st

/-- All receipt ids in the table are pairwise distinct
(`receipts.receipt_id` is `UNIQUE`). -/
def receiptIdsNodup (st : Ledger) : Prop :=
  (st.receipts.map (fun r => r.receipt_id)).Nodup

/-! ### Concrete fixtures used by the witnesses and counterexamples -/

/-- The ledger right after `register("a@b.com","Alice","secret1")` on the
fresh database. -/
def stAlice : Ledger := (register_user "Alice" "a@b.com" "bcrypt-of-secret1" initLedger).2

/-- Alice's freshly created customer profile (usage 0, unpaid, linked to
user 2). -/
def rowAlice : CustomerRow := ⟨1, "Alice", "a@b.com", 0, false, some 2, none, none⟩

/-- A ledger holding one previously settled customer (id 5, `bill_paid`
set, with its receipt). -/
def stPaid : Ledger :=
  { users := [⟨1, "admin@portal.com", "bcrypt-of-admin", "admin"⟩]
    customers := [⟨5, "Carl", "c@x.com", 30, true, none, none, none⟩]
    receipts := [⟨1, "RPT-20250101120000-5", 5, 15, "2025-01-01 12:00:00"⟩]
    next_user_id := 2
    next_customer_id := 6
    next_receipt_row_id := 2 }

/-- A ledger with a single unpaid customer of usage 10. -/
def stNeg : Ledger :=
  { users := [⟨1, "admin@portal.com", "bcrypt-of-admin", "admin"⟩]
    customers := [⟨1, "Bob", "bob@x.com", 10, false, none, none, none⟩]
    receipts := []
    next_user_id := 2
    next_customer_id := 2
    next_receipt_row_id := 1 }

/-- A ledger with a customer linked to user 2 and one receipt on record. -/
def stDel : Ledger :=
  { users := [⟨1, "admin@portal.com", "bcrypt-of-admin", "admin"⟩,
              ⟨2, "d@x.com", "bcrypt-of-pw", "client"⟩]
    customers := [⟨1, "Dana", "d@x.com", 7, false, some 2, none, none⟩]
    receipts := [⟨1, "RPT-20250101120000-1", 1, 3, "2025-01-01 12:00:00"⟩]
    next_user_id := 3
    next_customer_id := 2
    next_receipt_row_id := 2 }

/-- The customer row of `stDel`. -/
def rowDel : CustomerRow := ⟨1, "Dana", "d@x.com", 7, false, some 2, none, none⟩

/-- A ledger already holding the email `b@c.com`. -/
def stImp : Ledger :=
  { users := [⟨1, "admin@portal.com", "bcrypt-of-admin", "admin"⟩]
    customers := [⟨1, "Bob", "b@c.com", 50, false, none, none, none⟩]
    receipts := []
    next_user_id := 2
    next_customer_id := 2
    next_receipt_row_id := 1 }

/-- A three-row CSV whose second row duplicates the existing `b@c.com`. -/
def rowsImp : List CsvRow :=
  [⟨"Row One", "r1@c.com", 1, false, none⟩,
   ⟨"Row Two", "b@c.com", 2, false, none⟩,
   ⟨"Row Three", "r3@c.com", 3, false, none⟩]

/-- A ledger where the unpaid customer linked to user 2 already has a
receipt carrying the id that a settlement at timestamp
`20250101120000` would generate again (a same-second re-settlement
after an intervening usage update). -/
def stCol : Ledger :=
  { users := [⟨1, "admin@portal.com", "bcrypt-of-admin", "admin"⟩,
              ⟨2, "e@x.com", "bcrypt-of-pw", "client"⟩]
    customers := [⟨1, "Eve", "e@x.com", 4, false, some 2, none, none⟩]
    receipts := [⟨1, mkReceiptId "20250101120000" 1, 1, 9, "2025-01-01 12:00:00"⟩]
    next_user_id := 3
    next_customer_id := 2
    next_receipt_row_id := 2 }

/-- The customer row of `stCol`. -/
def rowCol : CustomerRow := ⟨1, "Eve", "e@x.com", 4, false, some 2, none, none⟩

/-- A ledger in which two customer rows share `user_id = 2` — reachable
because `customers.user_id` carries no uniqueness constraint and the
CSV bulk load appends a `user_id` column verbatim. -/
def stC10 : Ledger :=
  { users := [⟨1, "admin@portal.com", "bcrypt-of-admin", "admin"⟩,
              ⟨2, "a@x.com", "bcrypt-of-pw", "client"⟩]
    customers := [⟨1, "Ann", "a@x.com", 10, false, some 2, none, none⟩,
                  ⟨2, "Bea", "bea@x.com", 99, false, some 2, none, none⟩]
    receipts := []
    next_user_id := 3
    next_customer_id := 3
    next_receipt_row_id := 1 }

/-- First customer row of `stC10` (the one `fetchone` returns). -/
def rowC10 : CustomerRow := ⟨1, "Ann", "a@x.com", 10, false, some 2, none, none⟩

/-- Second customer row of `stC10`, sharing `user_id = 2`. -/
def rowC10b : CustomerRow := ⟨2, "Bea", "bea@x.com", 99, false, some 2, none, none⟩

/-- A CSV row carrying `bill_paid = 1`, as produced e.g. by re-importing
an `exportCsv` file of a settled customer. -/
def csvPaidRow : CsvRow :=
  { full_name := "Xenia"
    email := "x@y.com"
    monthly_usage_kwh := 10
    bill_paid := true
    user_id := none }

/-! ### Helper lemmas -/

theorem settleUpdate_user_id (uid : Nat) (now : String) (c : CustomerRow) :
    (settleUpdate uid now c).user_id = c.user_id := by
  unfold settleUpdate; split <;> rfl

theorem settleUpdate_id (uid : Nat) (now : String) (c : CustomerRow) :
    (settleUpdate uid now c).id = c.id := by
  unfold settleUpdate; split <;> rfl

theorem usageUpdate_user_id (cid : Nat) (u : ℚ) (c : CustomerRow) :
    (usageUpdate cid u c).user_id = c.user_id := by
  unfold usageUpdate; split <;> rfl

theorem client_pay_bill_notFound (uid : Nat) (now : String) (st : Ledger)
    (hfind : st.customers.find? (fun c => decide (c.user_id = some uid)) = none) :
    client_pay_bill uid now st = (SettleResult.notFound, st) := by
  unfold client_pay_bill; rw [hfind]

theorem client_pay_bill_alreadyPaid (uid : Nat) (now : String) (st : Ledger)
    (row : CustomerRow)
    (hfind : st.customers.find? (fun c => decide (c.user_id = some uid)) = some row)
    (hpaid : row.bill_paid = true) :
    client_pay_bill uid now st = (SettleResult.alreadyPaid, st) := by
  unfold client_pay_bill; rw [hfind]; simp [hpaid]

theorem client_pay_bill_collision (uid : Nat) (now : String) (st : Ledger)
    (row : CustomerRow)
    (hfind : st.customers.find? (fun c => decide (c.user_id = some uid)) = some row)
    (hunpaid : row.bill_paid = false)
    (hcol : st.receipts.any (fun r => decide (r.receipt_id = mkReceiptId now row.id)) = true) :
    client_pay_bill uid now st = (SettleResult.idCollision, st) := by
  unfold client_pay_bill; rw [hfind]; simp [hunpaid, hcol]

theorem client_pay_bill_settled (uid : Nat) (now : String) (st : Ledger)
    (row : CustomerRow)
    (hfind : st.customers.find? (fun c => decide (c.user_id = some uid)) = some row)
    (hunpaid : row.bill_paid = false)
    (hnocol : st.receipts.any (fun r => decide (r.receipt_id = mkReceiptId now row.id)) = false) :
    client_pay_bill uid now st =
      (SettleResult.settled (mkReceiptId now row.id) (row.monthly_usage_kwh * costPerKwh),
        { st with
            customers := st.customers.map (settleUpdate uid now)
            receipts := st.receipts ++
              [⟨st.next_receipt_row_id, mkReceiptId now row.id, row.id,
                row.monthly_usage_kwh * costPerKwh, now⟩]
            next_receipt_row_id := st.next_receipt_row_id + 1 }) := by
  unfold client_pay_bill; rw [hfind]; simp [hunpaid, hnocol]

/-! ### C1 -/

/-- C1: settling an unpaid customer linked to the given user sets
`bill_paid = true`, resets `monthly_usage_kwh` to `0`, stamps
`last_payment_date` with the settlement time, and appends exactly one
receipt whose `amount_paid` equals the pre-reset usage times
`costPerKwh` and whose `payment_date` is that same time. -/
theorem claim_C1_settle (st : Ledger) (uid : Nat) (now : String) (row : CustomerRow)
    (hfind : st.customers.find? (fun c => decide (c.user_id = some uid)) = some row)
    (hunpaid : row.bill_paid = false)
    (hnocol : st.receipts.any (fun r => decide (r.receipt_id = mkReceiptId now row.id)) = false) :
    (client_pay_bill uid now st).1 =
      SettleResult.settled (mkReceiptId now row.id) (row.monthly_usage_kwh * costPerKwh) ∧
    (client_pay_bill uid now st).2.receipts =
      st.receipts ++
        [⟨st.next_receipt_row_id, mkReceiptId now row.id, row.id,
          row.monthly_usage_kwh * costPerKwh, now⟩] ∧
    (client_pay_bill uid now st).2.customers = st.customers.map (settleUpdate uid now) ∧
    settleUpdate uid now row =
      { row with bill_paid := true, monthly_usage_kwh := 0, last_payment_date := some now } := by
  have hrowuid : row.user_id = some uid := by simpa using List.find?_some hfind
  rw [client_pay_bill_settled uid now st row hfind hunpaid hnocol]
  exact ⟨rfl, rfl, rfl, by unfold settleUpdate; rw [if_pos hrowuid]⟩

/-- C1 witness: registering `a@b.com` on the fresh database and settling
immediately yields a successful settlement with amount `0`, one appended
receipt of `amount_paid = 0`, and the customer marked paid. -/
theorem claim_C1_witness :
    rowAlice.monthly_usage_kwh * costPerKwh = 0 ∧
    (client_pay_bill 2 "20250101120000" stAlice).1 =
      SettleResult.settled (mkReceiptId "20250101120000" rowAlice.id)
        (rowAlice.monthly_usage_kwh * costPerKwh) ∧
    (client_pay_bill 2 "20250101120000" stAlice).2.receipts =
      stAlice.receipts ++
        [⟨stAlice.next_receipt_row_id, mkReceiptId "20250101120000" rowAlice.id,
          rowAlice.id, rowAlice.monthly_usage_kwh * costPerKwh, "20250101120000"⟩] ∧
    settleUpdate 2 "20250101120000" rowAlice =
      { rowAlice with
          bill_paid := true
          monthly_usage_kwh := 0
          last_payment_date := some "20250101120000" } := by
  have h := claim_C1_settle stAlice 2 "20250101120000" rowAlice
    (by decide) (by decide) (by decide)
  exact ⟨by simp [rowAlice], h.1, h.2.1, h.2.2.2⟩

/-! ### C2 -/

/-- C2: settlement is idempotent in effect — after a successful settle,
exactly one receipt was added, and a second settle (at any later
timestamp) reports AlreadyPaid and returns the ledger completely
unchanged. -/
theorem claim_C2_idempotent (st : Ledger) (uid : Nat) (now now2 : String)
    (row : CustomerRow)
    (hfind : st.customers.find? (fun c => decide (c.user_id = some uid)) = some row)
    (hunpaid : row.bill_paid = false)
    (hnocol : st.receipts.any (fun r => decide (r.receipt_id = mkReceiptId now row.id)) = false) :
    (client_pay_bill uid now st).1 =
      SettleResult.settled (mkReceiptId now row.id) (row.monthly_usage_kwh * costPerKwh) ∧
    (client_pay_bill uid now st).2.receipts.length = st.receipts.length + 1 ∧
    client_pay_bill uid now2 (client_pay_bill uid now st).2 =
      (SettleResult.alreadyPaid, (client_pay_bill uid now st).2) := by
  have hrowuid : row.user_id = some uid := by simpa using List.find?_some hfind
  have heq := client_pay_bill_settled uid now st row hfind hunpaid hnocol
  have hfind2 : (st.customers.map (settleUpdate uid now)).find?
      (fun c => decide (c.user_id = some uid)) =
      some (settleUpdate uid now row) := by
    rw [List.find?_map]
    have hcomp : ((fun c : CustomerRow => decide (c.user_id = some uid)) ∘
        settleUpdate uid now) = (fun c : CustomerRow => decide (c.user_id = some uid)) := by
      funext c
      simp only [Function.comp_apply, settleUpdate_user_id]
    rw [hcomp, hfind, Option.map_some']
  have hpaid2 : (settleUpdate uid now row).bill_paid = true := by
    unfold settleUpdate; rw [if_pos hrowuid]
  rw [heq]
  refine ⟨rfl, by simp, ?_⟩
  exact client_pay_bill_alreadyPaid uid now2 _ (settleUpdate uid now row) hfind2 hpaid2

/-- C2 witness: settling Alice's fresh account twice in a row — the
second call reports AlreadyPaid, changes nothing, and the pair produced
exactly one receipt. -/
theorem claim_C2_witness :
    client_pay_bill 2 "20250101120001" (client_pay_bill 2 "20250101120000" stAlice).2 =
      (SettleResult.alreadyPaid, (client_pay_bill 2 "20250101120000" stAlice).2) ∧
    (client_pay_bill 2 "20250101120000" stAlice).2.receipts.length =
      stAlice.receipts.length + 1 := by
  have h := claim_C2_idempotent stAlice 2 "20250101120000" "20250101120001" rowAlice
    (by decide) (by decide) (by decide)
  exact ⟨h.2.2, h.2.1⟩

/-! ### C3 -/

/-- C3 counterexample: on a ledger holding customer 1 with usage 10,
`updateUsage(1, -5)` does not fail — it reports success and stores the
negative usage `-5` (the source has no sign validation). -/
theorem claim_C3_counterexample :
    (admin_update_usage 1 (-5) stNeg).1 = UpdateResult.ok ∧
    ∃ c ∈ (admin_update_usage 1 (-5) stNeg).2.customers,
      c.monthly_usage_kwh = -5 := by
  constructor
  · rfl
  · refine ⟨⟨1, "Bob", "bob@x.com", -5, false, none, none, none⟩, ?_, rfl⟩
    show _ ∈ [(⟨1, "Bob", "bob@x.com", -5, false, none, none, none⟩ : CustomerRow)]
    exact List.mem_singleton.mpr rfl

/-- C3 (amended): `updateUsage` performs no sign check — for every
existing customer and every `newUsage`, including a negative one, it
reports success, stores `newUsage` verbatim (so a negative value is
stored) and resets `bill_paid` to false. -/
theorem claim_C3_amended (st : Ledger) (cid : Nat) (u : ℚ) (hneg : u < 0)
    (hex : st.customers.any (fun c => decide (c.id = cid)) = true) :
    (admin_update_usage cid u st).1 = UpdateResult.ok ∧
    ∃ c ∈ (admin_update_usage cid u st).2.customers,
      c.monthly_usage_kwh = u ∧ c.monthly_usage_kwh < 0 ∧ c.bill_paid = false := by
  obtain ⟨c0, hc0, hc0id⟩ := List.any_eq_true.mp hex
  have hid : c0.id = cid := of_decide_eq_true hc0id
  unfold admin_update_usage
  rw [hex]
  refine ⟨rfl, ?_⟩
  simp only [if_true]
  refine ⟨usageUpdate cid u c0, List.mem_map.mpr ⟨c0, hc0, rfl⟩, ?_⟩
  unfold usageUpdate
  rw [if_pos hid]
  exact ⟨rfl, hneg, rfl⟩

/-- C3 witness for the amended claim, at the concrete input of the
counterexample. -/
theorem claim_C3_witness :
    (admin_update_usage 1 (-5) stNeg).1 = UpdateResult.ok ∧
    ∃ c ∈ (admin_update_usage 1 (-5) stNeg).2.customers,
      c.monthly_usage_kwh = -5 ∧ c.monthly_usage_kwh < 0 ∧ c.bill_paid = false :=
  claim_C3_amended stNeg 1 (-5) (by norm_num) (by decide)

/-! ### C4 -/

/-- C4: for an existing customer id, `updateUsage` stores the new usage
and unconditionally resets `bill_paid` to false (also when the customer
was previously paid — `usageUpdate` overwrites `bill_paid` regardless of
its prior value); for an id matching no row it reports NotFound and
mutates nothing. -/
theorem claim_C4_updateUsage (st : Ledger) (cid : Nat) (u : ℚ) :
    (st.customers.any (fun c => decide (c.id = cid)) = true →
      admin_update_usage cid u st =
        (UpdateResult.ok,
          { st with customers := st.customers.map (usageUpdate cid u) })) ∧
    (st.customers.any (fun c => decide (c.id = cid)) = false →
      admin_update_usage cid u st = (UpdateResult.notFound, st)) ∧
    (∀ c : CustomerRow, c.id = cid →
      usageUpdate cid u c = { c with monthly_usage_kwh := u, bill_paid := false }) := by
  refine ⟨?_, ?_, ?_⟩
  · intro h; unfold admin_update_usage; rw [h]; rfl
  · intro h; unfold admin_update_usage; rw [h]; rfl
  · intro c hc; unfold usageUpdate; rw [if_pos hc]

/-- C4 witness: `updateUsage(5, 120.0)` on the previously paid customer 5
flips `bill_paid` back to false and stores usage 120. -/
theorem claim_C4_witness :
    admin_update_usage 5 120 stPaid =
      (UpdateResult.ok,
        { stPaid with customers := stPaid.customers.map (usageUpdate 5 120) }) ∧
    stPaid.customers.map (usageUpdate 5 120) =
      [⟨5, "Carl", "c@x.com", 120, false, none, none, none⟩] := by
  exact ⟨(claim_C4_updateUsage stPaid 5 120).1 (by decide), by decide⟩

/-! ### C8 -/

/-- C8: registration is all-or-nothing — if the email already exists in
`users`, or already exists as a customer email (making the customer
insert violate uniqueness), the call reports the duplicate and leaves
both tables untouched; otherwise exactly one `role='client'` user and
one linked customer sharing the email are appended together. -/
theorem claim_C8_register (st : Ledger) (full_name email password_hash : String) :
    ((st.users.any (fun u => decide (u.email = email)) = true ∨
      st.customers.any (fun c => decide (c.email = email)) = true) →
      register_user full_name email password_hash st =
        (RegisterResult.accountExists, st)) ∧
    (st.users.any (fun u => decide (u.email = email)) = false →
     st.customers.any (fun c => decide (c.email = email)) = false →
      register_user full_name email password_hash st =
        (RegisterResult.ok st.next_user_id,
          { st with
              users := st.users ++ [⟨st.next_user_id, email, password_hash, "client"⟩]
              customers := st.customers ++
                [⟨st.next_customer_id, full_name, email, 0, false,
                  some st.next_user_id, none, none⟩]
              next_user_id := st.next_user_id + 1
              next_customer_id := st.next_customer_id + 1 })) := by
  constructor
  · rintro (h | h) <;> unfold register_user
    · rw [h]; rfl
    · rw [h]
      by_cases h1 : st.users.any (fun u => decide (u.email = email)) = true
      · rw [h1]; rfl
      · rw [Bool.not_eq_true] at h1; rw [h1]; rfl
  · intro h1 h2; unfold register_user; rw [h1, h2]; rfl

/-- C8 witness: registering a fresh email on the initial database
persists exactly the new user and its linked customer. -/
theorem claim_C8_witness :
    register_user "Zoe" "z@y.com" "bcrypt-of-pw2" initLedger =
      (RegisterResult.ok 2,
        { users := [⟨1, "admin@portal.com", "bcrypt-of-admin", "admin"⟩,
                    ⟨2, "z@y.com", "bcrypt-of-pw2", "client"⟩]
          customers := [⟨1, "Zoe", "z@y.com", 0, false, some 2, none, none⟩]
          receipts := []
          next_user_id := 3
          next_customer_id := 2
          next_receipt_row_id := 1 }) := by
  have h := (claim_C8_register initLedger "Zoe" "z@y.com" "bcrypt-of-pw2").2
    (by decide) (by decide)
  exact h.trans (by decide)

/-! ### C9 -/

theorem admin_delete_customer_found (cid : Nat) (st : Ledger) (row : CustomerRow)
    (h : st.customers.find? (fun c => decide (c.id = cid)) = some row) :
    admin_delete_customer cid st =
      (DeleteResult.ok,
        { st with
            customers := st.customers.filter (fun c => decide (c.id ≠ cid))
            users :=
              match row.user_id with
              | none => st.users
              | some u =>
                if u = 0 then st.users
                else st.users.filter (fun x => decide (x.id ≠ u)) }) := by
  unfold admin_delete_customer; rw [h]

/-- C9: deleting an existing customer removes its row (and never touches
receipts); when the customer is linked (`user_id = some u`, `u ≠ 0` —
SQLite ids start at 1), the linked user row is removed too; when it is
unlinked the users table is unchanged; when no customer matches, the
call reports NotFound and deletes nothing. -/
theorem claim_C9_delete (st : Ledger) (cid : Nat) :
    (st.customers.find? (fun c => decide (c.id = cid)) = none →
      admin_delete_customer cid st = (DeleteResult.notFound, st)) ∧
    (∀ row, st.customers.find? (fun c => decide (c.id = cid)) = some row →
      (admin_delete_customer cid st).1 = DeleteResult.ok ∧
      (admin_delete_customer cid st).2.customers =
        st.customers.filter (fun c => decide (c.id ≠ cid)) ∧
      (admin_delete_customer cid st).2.receipts = st.receipts ∧
      (row.user_id = none → (admin_delete_customer cid st).2.users = st.users) ∧
      (∀ u, row.user_id = some u → u ≠ 0 →
        (admin_delete_customer cid st).2.users =
          st.users.filter (fun x => decide (x.id ≠ u)))) := by
  constructor
  · intro h; unfold admin_delete_customer; rw [h]
  · intro row h
    rw [admin_delete_customer_found cid st row h]
    refine ⟨rfl, rfl, rfl, ?_, ?_⟩
    · intro hn; rw [hn]
    · intro u hu hu0
      rw [hu]
      show (if u = 0 then st.users else st.users.filter (fun x => decide (x.id ≠ u))) = _
      rw [if_neg hu0]

/-- C9 witness: deleting linked customer 1 of `stDel` removes the
customer and user 2, keeps the receipt, and reports success. -/
theorem claim_C9_witness :
    (admin_delete_customer 1 stDel).1 = DeleteResult.ok ∧
    (admin_delete_customer 1 stDel).2.receipts = stDel.receipts ∧
    (admin_delete_customer 1 stDel).2.users =
      stDel.users.filter (fun x => decide (x.id ≠ 2)) ∧
    (admin_delete_customer 1 stDel).2.customers =
      stDel.customers.filter (fun c => decide (c.id ≠ 1)) := by
  have h := (claim_C9_delete stDel 1).2 rowDel (by decide)
  exact ⟨h.1, h.2.2.1, h.2.2.2.2 2 (by decide) (by decide), h.2.1⟩

/-! ### C7 -/

theorem insertCustomerRow_email_mono (x : CsvRow) (st : Ledger) (e : String)
    (h : ∃ c ∈ st.customers, c.email = e) :
    ∃ c ∈ (insertCustomerRow x st).customers, c.email = e := by
  obtain ⟨c, hc, he⟩ := h
  exact ⟨c, List.mem_append_left _ hc, he⟩

theorem insertCustomerRow_email_new (x : CsvRow) (st : Ledger) :
    ∃ c ∈ (insertCustomerRow x st).customers, c.email = x.email := by
  refine ⟨⟨st.next_customer_id, x.full_name, x.email, x.monthly_usage_kwh,
    x.bill_paid, x.user_id, none, none⟩, ?_, rfl⟩
  exact List.mem_append_right _ (List.mem_singleton.mpr rfl)

theorem insertCsvRows_none_of_mem :
    ∀ (rows : List CsvRow) (st : Ledger),
      (∃ r ∈ rows, ∃ c ∈ st.customers, c.email = r.email) →
      insertCsvRows st rows = none := by
  intro rows
  induction rows with
  | nil =>
    intro st h
    obtain ⟨r, hr, -⟩ := h
    exact absurd hr (List.not_mem_nil r)
  | cons x rs ih =>
    intro st h
    unfold insertCsvRows
    by_cases hx : st.customers.any (fun c => decide (c.email = x.email)) = true
    · rw [hx]; rfl
    · rw [Bool.not_eq_true] at hx
      rw [hx]
      rw [if_neg Bool.false_ne_true]
      obtain ⟨r, hr, c, hc, he⟩ := h
      rcases List.mem_cons.mp hr with rfl | hr2
      · exact absurd (List.any_eq_true.mpr ⟨c, hc, decide_eq_true he⟩)
          (by rw [hx]; exact Bool.false_ne_true)
      · exact ih (insertCustomerRow x st)
          ⟨r, hr2, insertCustomerRow_email_mono x st r.email ⟨c, hc, he⟩⟩

theorem insertCsvRows_none_of_batch_dup :
    ∀ (rows : List CsvRow) (st : Ledger),
      ¬ (rows.map (fun r => r.email)).Nodup →
      insertCsvRows st rows = none := by
  intro rows
  induction rows with
  | nil => intro st h; exact absurd List.nodup_nil h
  | cons x rs ih =>
    intro st h
    rw [List.map_cons, List.nodup_cons] at h
    unfold insertCsvRows
    by_cases hx : st.customers.any (fun c => decide (c.email = x.email)) = true
    · rw [hx]; rfl
    · rw [Bool.not_eq_true] at hx
      rw [hx]
      rw [if_neg Bool.false_ne_true]
      rcases not_and_or.mp h with h1 | h2
      · rw [not_not] at h1
        obtain ⟨r, hr, he⟩ := List.mem_map.mp h1
        apply insertCsvRows_none_of_mem
        refine ⟨r, hr, ?_⟩
        have hnew := insertCustomerRow_email_new x st
        rw [← he] at hnew
        exact hnew
      · exact ih (insertCustomerRow x st) h2

/-- C7: whenever some CSV row's email collides with an existing customer
email, or two batch rows share an email, the bulk load reports the
duplicate-email failure and the ledger — in particular the customers
table — is exactly as before: zero rows of the file are persisted. -/
theorem claim_C7_import_atomic (st : Ledger) (rows : List CsvRow)
    (h : (∃ r ∈ rows, ∃ c ∈ st.customers, c.email = r.email) ∨
         ¬ (rows.map (fun r => r.email)).Nodup) :
    admin_bulk_load rows st = (ImportResult.duplicateEmail, st) := by
  unfold admin_bulk_load
  rcases h with h | h
  · rw [insertCsvRows_none_of_mem rows st h]
  · rw [insertCsvRows_none_of_batch_dup rows st h]

/-- C7 witness: importing a 3-row CSV whose second row duplicates the
existing email `b@c.com` fails and persists nothing. -/
theorem claim_C7_witness :
    admin_bulk_load rowsImp stImp = (ImportResult.duplicateEmail, stImp) :=
  claim_C7_import_atomic stImp rowsImp (Or.inl (by decide))

/-! ### State-shape lemmas for the reachability arguments -/

theorem client_pay_bill_cases (uid : Nat) (now : String) (st : Ledger) :
    (client_pay_bill uid now st).2 = st ∨
    ∃ row, st.customers.find? (fun c => decide (c.user_id = some uid)) = some row ∧
      row.bill_paid = false ∧
      st.receipts.any (fun r => decide (r.receipt_id = mkReceiptId now row.id)) = false ∧
      (client_pay_bill uid now st).2 =
        { st with
            customers := st.customers.map (settleUpdate uid now)
            receipts := st.receipts ++
              [⟨st.next_receipt_row_id, mkReceiptId now row.id, row.id,
                row.monthly_usage_kwh * costPerKwh, now⟩]
            next_receipt_row_id := st.next_receipt_row_id + 1 } := by
  cases hfind : st.customers.find? (fun c => decide (c.user_id = some uid)) with
  | none => left; rw [client_pay_bill_notFound uid now st hfind]
  | some row =>
    by_cases hpaid : row.bill_paid = true
    · left; rw [client_pay_bill_alreadyPaid uid now st row hfind hpaid]
    · rw [Bool.not_eq_true] at hpaid
      by_cases hcol : st.receipts.any
          (fun r => decide (r.receipt_id = mkReceiptId now row.id)) = true
      · left; rw [client_pay_bill_collision uid now st row hfind hpaid hcol]
      · rw [Bool.not_eq_true] at hcol
        right
        exact ⟨row, rfl, hpaid, hcol,
          by rw [client_pay_bill_settled uid now st row hfind hpaid hcol]⟩

theorem register_user_receipts (n e p : String) (st : Ledger) :
    (register_user n e p st).2.receipts = st.receipts := by
  unfold register_user
  split
  · rfl
  · split <;> rfl

theorem admin_add_customer_receipts (n e : String) (u : ℚ) (st : Ledger) :
    (admin_add_customer n e u st).2.receipts = st.receipts := by
  unfold admin_add_customer
  split <;> rfl

theorem admin_update_usage_receipts (cid : Nat) (u : ℚ) (st : Ledger) :
    (admin_update_usage cid u st).2.receipts = st.receipts := by
  unfold admin_update_usage
  split <;> rfl

theorem admin_delete_customer_receipts (cid : Nat) (st : Ledger) :
    (admin_delete_customer cid st).2.receipts = st.receipts := by
  unfold admin_delete_customer
  split <;> rfl

theorem insertCsvRows_receipts :
    ∀ (rows : List CsvRow) (st st2 : Ledger),
      insertCsvRows st rows = some st2 → st2.receipts = st.receipts := by
  intro rows
  induction rows with
  | nil =>
    intro st st2 h
    unfold insertCsvRows at h
    cases h
    rfl
  | cons x rs ih =>
    intro st st2 h
    unfold insertCsvRows at h
    by_cases hx : st.customers.any (fun c => decide (c.email = x.email)) = true
    · rw [hx] at h; cases h
    · rw [Bool.not_eq_true] at hx
      rw [hx, if_neg Bool.false_ne_true] at h
      exact ih (insertCustomerRow x st) st2 h

theorem admin_bulk_load_receipts (rows : List CsvRow) (st : Ledger) :
    (admin_bulk_load rows st).2.receipts = st.receipts := by
  unfold admin_bulk_load
  cases h : insertCsvRows st rows with
  | none => rfl
  | some st2 => exact insertCsvRows_receipts rows st st2 h

theorem settle_preserves_nodup (uid : Nat) (now : String) (st : Ledger)
    (h : receiptIdsNodup st) : receiptIdsNodup (client_pay_bill uid now st).2 := by
  rcases client_pay_bill_cases uid now st with heq | ⟨row, hfind, hpaid, hcol, heq⟩
  · rw [heq]; exact h
  · rw [heq]
    unfold receiptIdsNodup at h ⊢
    show ((st.receipts ++
      [(⟨st.next_receipt_row_id, mkReceiptId now row.id, row.id,
        row.monthly_usage_kwh * costPerKwh, now⟩ : ReceiptRow)]).map
          (fun r : ReceiptRow => r.receipt_id)).Nodup
    rw [List.map_append]
    rw [List.nodup_append]
    refine ⟨h, List.nodup_singleton _, ?_⟩
    intro a ha hb
    rw [List.map_singleton, List.mem_singleton] at hb
    obtain ⟨r, hr, hra⟩ := List.mem_map.mp ha
    have hne := List.any_eq_false.mp hcol r hr
    rw [decide_eq_true_eq] at hne
    exact hne (by rw [← hra] at hb; exact hb)

theorem applyOp_preserves_nodup (st : Ledger) (op : Op) (h : receiptIdsNodup st) :
    receiptIdsNodup (applyOp st op) := by
  cases op with
  | register n e p =>
    unfold applyOp receiptIdsNodup
    rw [register_user_receipts]
    exact h
  | addCustomer n e u =>
    unfold applyOp receiptIdsNodup
    rw [admin_add_customer_receipts]
    exact h
  | updateUsage cid u =>
    unfold applyOp receiptIdsNodup
    rw [admin_update_usage_receipts]
    exact h
  | settle uid now => exact settle_preserves_nodup uid now st h
  | deleteCustomer cid =>
    unfold applyOp receiptIdsNodup
    rw [admin_delete_customer_receipts]
    exact h
  | importCsv rows =>
    unfold applyOp receiptIdsNodup
    rw [admin_bulk_load_receipts]
    exact h

theorem foldl_preserves_nodup :
    ∀ (ops : List Op) (st : Ledger),
      receiptIdsNodup st → receiptIdsNodup (ops.foldl applyOp st) := by
  intro ops
  induction ops with
  | nil => intro st h; exact h
  | cons op rest ih =>
    intro st h
    rw [List.foldl_cons]
    exact ih (applyOp st op) (applyOp_preserves_nodup st op h)

/-! ### C6 -/

/-- C6: in every reachable ledger the stored receipt ids are pairwise
distinct — two distinct successful settlements can never have committed
the same `receipt_id` (the `UNIQUE` constraint admits each id once and
receipts are never deleted) — and a settlement attempt whose generated
id (second-resolution timestamp plus customer id) collides with an
existing receipt aborts with a fatal error, leaving the ledger unchanged
and never silently reusing the id.  In particular a second settlement of
the same customer within the same second cannot commit a duplicate. -/
theorem claim_C6_receipt_ids (ops : List Op) :
    receiptIdsNodup (runOps ops) ∧
    (∀ (st : Ledger) (uid : Nat) (now : String) (row : CustomerRow),
      st.customers.find? (fun c => decide (c.user_id = some uid)) = some row →
      row.bill_paid = false →
      st.receipts.any (fun r => decide (r.receipt_id = mkReceiptId now row.id)) = true →
      client_pay_bill uid now st = (SettleResult.idCollision, st)) := by
  constructor
  · exact foldl_preserves_nodup ops initLedger (by unfold receiptIdsNodup; decide)
  · intro st uid now row hfind hpaid hcol
    exact client_pay_bill_collision uid now st row hfind hpaid hcol

/-- C6 witness: in `stCol` the unpaid customer 1 already has a receipt
whose id equals the one a settlement at the same second would generate;
that settlement aborts with the collision error and changes nothing. -/
theorem claim_C6_witness :
    client_pay_bill 2 "20250101120000" stCol = (SettleResult.idCollision, stCol) :=
  (claim_C6_receipt_ids []).2 stCol 2 "20250101120000" rowCol
    (by decide) (by decide) (by decide)

theorem register_preserves_inv (n e p : String) (st : Ledger) (h : ledgerInv st) :
    ledgerInv (register_user n e p st).2 := by
  obtain ⟨hpr, hlu, hlb⟩ := h
  unfold register_user
  by_cases h1 : st.users.any (fun u => decide (u.email = e)) = true
  · rw [h1]; exact ⟨hpr, hlu, hlb⟩
  · rw [Bool.not_eq_true] at h1
    rw [h1, if_neg Bool.false_ne_true]
    by_cases h2 : st.customers.any (fun c => decide (c.email = e)) = true
    · rw [h2]; exact ⟨hpr, hlu, hlb⟩
    · rw [Bool.not_eq_true] at h2
      rw [h2, if_neg Bool.false_ne_true]
      refine ⟨?_, ?_, ?_⟩
      · intro c hc hcp
        rcases List.mem_append.mp hc with hc | hc
        · obtain ⟨r, hr, hrc⟩ := hpr c hc hcp
          exact ⟨r, hr, hrc⟩
        · rw [List.mem_singleton] at hc
          subst hc
          exact absurd hcp Bool.false_ne_true
      · intro c1 hc1 c2 hc2 v e1 e2
        rcases List.mem_append.mp hc1 with hc1 | hc1 <;>
          rcases List.mem_append.mp hc2 with hc2 | hc2
        · exact hlu c1 hc1 c2 hc2 v e1 e2
        · rw [List.mem_singleton] at hc2
          subst hc2
          have hv : v = st.next_user_id := (Option.some.inj e2).symm
          have hlt := hlb c1 hc1 v e1
          rw [hv] at hlt
          exact absurd hlt (lt_irrefl _)
        · rw [List.mem_singleton] at hc1
          subst hc1
          have hv : v = st.next_user_id := (Option.some.inj e1).symm
          have hlt := hlb c2 hc2 v e2
          rw [hv] at hlt
          exact absurd hlt (lt_irrefl _)
        · rw [List.mem_singleton] at hc1
          rw [List.mem_singleton] at hc2
          rw [hc1, hc2]
      · intro c hc v e
        rcases List.mem_append.mp hc with hc | hc
        · exact Nat.lt_succ_of_lt (hlb c hc v e)
        · rw [List.mem_singleton] at hc
          subst hc
          have hv : st.next_user_id = v := Option.some.inj e
          rw [← hv]
          exact Nat.lt_succ_self _

theorem add_preserves_inv (n e : String) (u : ℚ) (st : Ledger) (h : ledgerInv st) :
    ledgerInv (admin_add_customer n e u st).2 := by
  obtain ⟨hpr, hlu, hlb⟩ := h
  unfold admin_add_customer
  by_cases h1 : st.customers.any (fun c => decide (c.email = e)) = true
  · rw [h1]; exact ⟨hpr, hlu, hlb⟩
  · rw [Bool.not_eq_true] at h1
    rw [h1, if_neg Bool.false_ne_true]
    refine ⟨?_, ?_, ?_⟩
    · intro c hc hcp
      rcases List.mem_append.mp hc with hc | hc
      · obtain ⟨r, hr, hrc⟩ := hpr c hc hcp
        exact ⟨r, hr, hrc⟩
      · rw [List.mem_singleton] at hc
        subst hc
        exact absurd hcp Bool.false_ne_true
    · intro c1 hc1 c2 hc2 v e1 e2
      rcases List.mem_append.mp hc1 with hc1 | hc1 <;>
        rcases List.mem_append.mp hc2 with hc2 | hc2
      · exact hlu c1 hc1 c2 hc2 v e1 e2
      · rw [List.mem_singleton] at hc2
        subst hc2
        exact Option.noConfusion e2
      · rw [List.mem_singleton] at hc1
        subst hc1
        exact Option.noConfusion e1
      · rw [List.mem_singleton] at hc1
        rw [List.mem_singleton] at hc2
        rw [hc1, hc2]
    · intro c hc v e
      rcases List.mem_append.mp hc with hc | hc
      · exact hlb c hc v e
      · rw [List.mem_singleton] at hc
        subst hc
        exact Option.noConfusion e

theorem update_preserves_inv (cid : Nat) (u : ℚ) (st : Ledger) (h : ledgerInv st) :
    ledgerInv (admin_update_usage cid u st).2 := by
  obtain ⟨hpr, hlu, hlb⟩ := h
  unfold admin_update_usage
  by_cases hex : st.customers.any (fun c => decide (c.id = cid)) = true
  · rw [hex]
    refine ⟨?_, ?_, ?_⟩
    · intro c hc hcp
      obtain ⟨a, ha, haeq⟩ := List.mem_map.mp hc
      subst haeq
      unfold usageUpdate at hcp ⊢
      by_cases hid : a.id = cid
      · rw [if_pos hid] at hcp
        exact absurd hcp Bool.false_ne_true
      · rw [if_neg hid] at hcp ⊢
        obtain ⟨r, hr, hrc⟩ := hpr a ha hcp
        exact ⟨r, hr, hrc⟩
    · intro c1 hc1 c2 hc2 v e1 e2
      obtain ⟨a1, ha1, h1eq⟩ := List.mem_map.mp hc1
      obtain ⟨a2, ha2, h2eq⟩ := List.mem_map.mp hc2
      subst h1eq
      subst h2eq
      rw [usageUpdate_user_id] at e1 e2
      rw [hlu a1 ha1 a2 ha2 v e1 e2]
    · intro c hc v e
      obtain ⟨a, ha, haeq⟩ := List.mem_map.mp hc
      subst haeq
      rw [usageUpdate_user_id] at e
      exact hlb a ha v e
  · rw [Bool.not_eq_true] at hex
    rw [hex, if_neg Bool.false_ne_true]
    exact ⟨hpr, hlu, hlb⟩

theorem delete_preserves_inv (cid : Nat) (st : Ledger) (h : ledgerInv st) :
    ledgerInv (admin_delete_customer cid st).2 := by
  obtain ⟨hpr, hlu, hlb⟩ := h
  cases hfind : st.customers.find? (fun c => decide (c.id = cid)) with
  | none =>
    have heq : admin_delete_customer cid st = (DeleteResult.notFound, st) := by
      unfold admin_delete_customer; rw [hfind]
    rw [heq]
    exact ⟨hpr, hlu, hlb⟩
  | some row =>
    rw [admin_delete_customer_found cid st row hfind]
    refine ⟨?_, ?_, ?_⟩
    · intro c hc hcp
      exact hpr c (List.mem_filter.mp hc).1 hcp
    · intro c1 hc1 c2 hc2 v e1 e2
      exact hlu c1 (List.mem_filter.mp hc1).1 c2 (List.mem_filter.mp hc2).1 v e1 e2
    · intro c hc v e
      exact hlb c (List.mem_filter.mp hc).1 v e

theorem settle_preserves_inv (uid : Nat) (now : String) (st : Ledger)
    (h : ledgerInv st) : ledgerInv (client_pay_bill uid now st).2 := by
  obtain ⟨hpr, hlu, hlb⟩ := h
  rcases client_pay_bill_cases uid now st with heq | ⟨row, hfind, hpaid, hcol, heq⟩
  · rw [heq]; exact ⟨hpr, hlu, hlb⟩
  · rw [heq]
    have hrowmem : row ∈ st.customers := List.mem_of_find?_eq_some hfind
    have hrowuid : row.user_id = some uid := by simpa using List.find?_some hfind
    refine ⟨?_, ?_, ?_⟩
    · intro c hc hcp
      obtain ⟨a, ha, haeq⟩ := List.mem_map.mp hc
      subst haeq
      by_cases hau : a.user_id = some uid
      · have haeq2 : a = row := hlu a ha row hrowmem uid hau hrowuid
        refine ⟨⟨st.next_receipt_row_id, mkReceiptId now row.id, row.id,
          row.monthly_usage_kwh * costPerKwh, now⟩,
          List.mem_append_right _ (List.mem_singleton.mpr rfl), ?_⟩
        show row.id = (settleUpdate uid now a).id
        rw [settleUpdate_id, haeq2]
      · have hfix : settleUpdate uid now a = a := by
          unfold settleUpdate; rw [if_neg hau]
        rw [hfix] at hcp ⊢
        obtain ⟨r, hr, hrc⟩ := hpr a ha hcp
        exact ⟨r, List.mem_append_left _ hr, hrc⟩
    · intro c1 hc1 c2 hc2 v e1 e2
      obtain ⟨a1, ha1, h1eq⟩ := List.mem_map.mp hc1
      obtain ⟨a2, ha2, h2eq⟩ := List.mem_map.mp hc2
      subst h1eq
      subst h2eq
      rw [settleUpdate_user_id] at e1 e2
      rw [hlu a1 ha1 a2 ha2 v e1 e2]
    · intro c hc v e
      obtain ⟨a, ha, haeq⟩ := List.mem_map.mp hc
      subst haeq
      rw [settleUpdate_user_id] at e
      exact hlb a ha v e

theorem initLedger_inv : ledgerInv initLedger := by
  refine ⟨?_, ?_, ?_⟩
  · intro c hc
    exact absurd hc (List.not_mem_nil c)
  · intro c1 hc1 c2 hc2 v e1 e2
    exact absurd hc1 (List.not_mem_nil c1)
  · intro c hc v e
    exact absurd hc (List.not_mem_nil c)

theorem foldl_preserves_inv :
    ∀ (ops : List Op) (st : Ledger),
      (∀ op ∈ ops, op.isImport = false) → ledgerInv st →
      ledgerInv (ops.foldl applyOp st) := by
  intro ops
  induction ops with
  | nil => intro st _ h; exact h
  | cons op rest ih =>
    intro st hno h
    rw [List.foldl_cons]
    refine ih (applyOp st op) (fun o ho => hno o (List.mem_cons_of_mem op ho)) ?_
    cases op with
    | register n e p => exact register_preserves_inv n e p st h
    | addCustomer n e u => exact add_preserves_inv n e u st h
    | updateUsage cid u => exact update_preserves_inv cid u st h
    | settle uid now => exact settle_preserves_inv uid now st h
    | deleteCustomer cid => exact delete_preserves_inv cid st h
    | importCsv rows =>
      have hcon := hno (Op.importCsv rows) (List.mem_cons_self _ _)
      exact absurd hcon (by simp [Op.isImport])

/-! ### C5 -/

/-- C5 counterexample: one operation sequence — bulk-importing a CSV row
that carries `bill_paid = 1` — reaches a ledger whose customer is marked
paid while the receipts table is empty, so the stated invariant over all
operation sequences fails.  (The same violation is reachable via a
settle on a user id shared by two customer rows, where the second row is
flipped paid with no receipt referencing it.) -/
theorem claim_C5_counterexample :
    ¬ paidHasReceipt (runOps [Op.importCsv [csvPaidRow]]) := by
  unfold paidHasReceipt
  decide

/-- C5 (amended): over every ledger reachable from the fresh database by
register, manual add, updateUsage, settle and deleteCustomer operations
— excluding CSV bulk import, which can inject `bill_paid`/`user_id`
column values verbatim — every customer with `bill_paid = true` has at
least one receipt row referencing it; in particular settle's
`bill_paid` flip and receipt insert commit together or not at all. -/
theorem claim_C5_amended (ops : List Op)
    (hno : ∀ op ∈ ops, op.isImport = false) :
    paidHasReceipt (runOps ops) :=
  (foldl_preserves_inv ops initLedger hno initLedger_inv).1

/-- C5 witness: the register-then-settle sequence reaches a ledger
satisfying the paid-implies-receipt invariant. -/
theorem claim_C5_witness :
    paidHasReceipt (runOps [Op.register "Alice" "a@b.com" "bcrypt-of-secret1",
      Op.settle 2 "20250101120000"]) :=
  claim_C5_amended
    [Op.register "Alice" "a@b.com" "bcrypt-of-secret1", Op.settle 2 "20250101120000"]
    (by decide)

/-! ### C10 -/

/-- C10: settlement's customer `UPDATE` matches rows by `user_id` while
the receipt references the customer id of the first fetched row; with
two or more customer rows sharing the settled user id, every such row
ends up `bill_paid = true` with `monthly_usage_kwh = 0`, while exactly
one receipt is appended, computed from and referencing only the first
fetched row. -/
theorem claim_C10_shared_user (st : Ledger) (uid : Nat) (now : String)
    (row c2 : CustomerRow)
    (hfind : st.customers.find? (fun c => decide (c.user_id = some uid)) = some row)
    (hunpaid : row.bill_paid = false)
    (hnocol : st.receipts.any (fun r => decide (r.receipt_id = mkReceiptId now row.id)) = false)
    (hc2 : c2 ∈ st.customers) (hc2uid : c2.user_id = some uid) (hne : c2 ≠ row) :
    (client_pay_bill uid now st).1 =
      SettleResult.settled (mkReceiptId now row.id) (row.monthly_usage_kwh * costPerKwh) ∧
    (∃ c ∈ st.customers, c ≠ row ∧ c.user_id = some uid) ∧
    (∀ c ∈ (client_pay_bill uid now st).2.customers, c.user_id = some uid →
      c.bill_paid = true ∧ c.monthly_usage_kwh = 0 ∧ c.last_payment_date = some now) ∧
    (client_pay_bill uid now st).2.receipts =
      st.receipts ++ [⟨st.next_receipt_row_id, mkReceiptId now row.id, row.id,
        row.monthly_usage_kwh * costPerKwh, now⟩] := by
  rw [client_pay_bill_settled uid now st row hfind hunpaid hnocol]
  refine ⟨rfl, ⟨c2, hc2, hne, hc2uid⟩, ?_, rfl⟩
  intro c hc hcu
  obtain ⟨a, ha, haeq⟩ := List.mem_map.mp hc
  subst haeq
  rw [settleUpdate_user_id] at hcu
  unfold settleUpdate
  rw [if_pos hcu]
  exact ⟨rfl, rfl, rfl⟩

/-- C10 witness: in `stC10` customers 1 and 2 both carry `user_id = 2`;
settling user 2 marks both rows paid with usage 0 and appends the single
receipt computed from row 1 (usage 10). -/
theorem claim_C10_witness :
    (client_pay_bill 2 "20250101120000" stC10).1 =
      SettleResult.settled (mkReceiptId "20250101120000" rowC10.id)
        (rowC10.monthly_usage_kwh * costPerKwh) ∧
    (∀ c ∈ (client_pay_bill 2 "20250101120000" stC10).2.customers,
      c.user_id = some 2 → c.bill_paid = true ∧ c.monthly_usage_kwh = 0 ∧
        c.last_payment_date = some "20250101120000") ∧
    (client_pay_bill 2 "20250101120000" stC10).2.receipts =
      stC10.receipts ++
        [⟨stC10.next_receipt_row_id, mkReceiptId "20250101120000" rowC10.id,
          rowC10.id, rowC10.monthly_usage_kwh * costPerKwh, "20250101120000"⟩] := by
  have h := claim_C10_shared_user stC10 2 "20250101120000" rowC10 rowC10b
    (by decide) (by decide) (by decide) (by decide) (by decide) (by decide)
  exact ⟨h.1, h.2.2.1, h.2.2.2⟩
